import Mathlib

/-!
Shallow embedding of `src/app.py` (R2-Index): a read-only Flask front end
over an S3-compatible object store (Cloudflare R2).

Modelling conventions:
* Python `str` is modelled as `List Char` (`PyStr`); Python compares strings
  lexicographically by code point, which coincides with `Char`'s order.
* Python truthiness on optional strings (`None` and `""` are falsy) is made
  explicit via `truthyOpt`.
* External collaborators (the boto3 store client, PIL, hashlib) are embedded
  at the granularity of their observable contracts, marked
  `Modelled from the spec:` in their doc comments.
* Exception control flow is modelled with `Except`; a blanket
  `except Exception` corresponds to matching on the `Except` value.
-/

/-- Python `str` modelled as a list of characters (code points). -/
abbrev PyStr := List Char

/-- Embed a Lean string literal into the `PyStr` model. -/
def str (s : String) : PyStr := s.data

/-- Python truthiness of an optional string: `None` and `""` are falsy. -/
def truthyOpt : Option PyStr → Bool
  | none => false
  | some s => !s.isEmpty

/-- Keep an optional string only when Python would regard it as truthy
(models `if value: entry[...] = value`). -/
def truthyFilter : Option PyStr → Option PyStr
  | none => none
  | some s => if s.isEmpty then none else some s

/-- ASCII lowercasing of one character, modelling Python `str.lower` as used
by `fileicon_filter` (non-ASCII case mappings cannot change the classifier's
output, since every recognised extension is ASCII). -/
def pyLower (c : Char) : Char :=
  match c with
  | 'A' => 'a' | 'B' => 'b' | 'C' => 'c' | 'D' => 'd' | 'E' => 'e' | 'F' => 'f'
  | 'G' => 'g' | 'H' => 'h' | 'I' => 'i' | 'J' => 'j' | 'K' => 'k' | 'L' => 'l'
  | 'M' => 'm' | 'N' => 'n' | 'O' => 'o' | 'P' => 'p' | 'Q' => 'q' | 'R' => 'r'
  | 'S' => 's' | 'T' => 't' | 'U' => 'u' | 'V' => 'v' | 'W' => 'w' | 'X' => 'x'
  | 'Y' => 'y' | 'Z' => 'z'
  | c => c

/-- Python `s.split(sep)` for a one-character separator: splits on every
occurrence and keeps empty fragments; `"".split(sep) == [""]`. -/
def pySplit (s : PyStr) (c : Char) : List PyStr :=
  match s with
  | [] => [[]]
  | a :: as =>
    match pySplit as c with
    | [] => [[]]
    | h :: t => if a = c then [] :: h :: t else (a :: h) :: t

/-- The lowercased extension computed by `fileicon_filter`:
`filename.lower().split(".")[-1] if "." in filename else ""`. -/
def pyExtension (filename : PyStr) : PyStr :=
  if filename.contains '.' then (pySplit (filename.map pyLower) '.').getLastD []
  else []

/-- Extension lists of `fileicon_filter`, in source order: images. -/
def imgExts : List PyStr :=
  [ str "jpg", str "jpeg", str "png", str "gif", str "bmp", str "webp", str "svg"]

/-- Audio extensions. -/
def audioExts : List PyStr :=
  [ str "mp3", str "wav", str "ogg", str "flac", str "m4a", str "aac"]

/-- Video extensions. -/
def videoExts : List PyStr :=
  [ str "mp4", str "webm", str "avi", str "mov", str "wmv", str "flv", str "mkv"]

/-- Document extensions. -/
def docExts : List PyStr :=
  [ str "pdf", str "doc", str "docx", str "txt", str "md", str "rtf"]

/-- Archive extensions. -/
def archiveExts : List PyStr :=
  [ str "zip", str "rar", str "7z", str "tar", str "gz"]

/-- Code extensions. -/
def codeExts : List PyStr :=
  [ str "py", str "js", str "html", str "css", str "java", str "cpp", str "c", str "php"]

/-- Spreadsheet extensions. -/
def excelExts : List PyStr :=
  [ str "xls", str "xlsx", str "csv"]

/-- Presentation extensions. -/
def pptExts : List PyStr :=
  [ str "ppt", str "pptx"]

/-- All extensions recognised by `fileicon_filter`. -/
def knownExts : List PyStr :=
  imgExts ++ audioExts ++ videoExts ++ docExts ++ archiveExts ++ codeExts ++
    excelExts ++ pptExts

/-- The `fileicon` template filter of `app.py`: classify a filename into a
Font Awesome icon class from its lowercased extension.  A falsy filename
(`None` or `""`) is modelled as `[]`. -/
def fileicon (filename : PyStr) : PyStr :=
  if filename.isEmpty then str "fas fa-file"
  else if pyExtension filename ∈ imgExts then str "fas fa-image"
  else if pyExtension filename ∈ audioExts then str "fas fa-music"
  else if pyExtension filename ∈ videoExts then str "fas fa-video"
  else if pyExtension filename ∈ docExts then str "fas fa-file-alt"
  else if pyExtension filename ∈ archiveExts then str "fas fa-file-archive"
  else if pyExtension filename ∈ codeExts then str "fas fa-file-code"
  else if pyExtension filename ∈ excelExts then str "fas fa-file-excel"
  else if pyExtension filename ∈ pptExts then str "fas fa-file-powerpoint"
  else str "fas fa-file"

/-- The closed set of icon classes `fileicon_filter` can return. -/
def iconClasses : List PyStr :=
  [ str "fas fa-image", str "fas fa-music", str "fas fa-video", str "fas fa-file-alt",
    str "fas fa-file-archive", str "fas fa-file-code", str "fas fa-file-excel",
    str "fas fa-file-powerpoint", str "fas fa-file"]

theorem pyLower_cases (c : Char) :
    pyLower c = c ∨ pyLower c ∈
      [ 'a', 'b', 'c', 'd', 'e', 'f', 'g', 'h', 'i', 'j', 'k', 'l', 'm',
        'n', 'o', 'p', 'q', 'r', 's', 't', 'u', 'v', 'w', 'x', 'y', 'z'] := by
  unfold pyLower
  split
  all_goals first | (left; rfl) | (right; decide)

theorem pyLower_pyLower (c : Char) : pyLower (pyLower c) = pyLower c := by
  rcases pyLower_cases c with h | h
  · rw [h]; exact h
  · simp only [List.mem_cons, List.not_mem_nil, or_false] at h
    rcases h with h|h|h|h|h|h|h|h|h|h|h|h|h|h|h|h|h|h|h|h|h|h|h|h|h|h <;>
      rw [h] <;> decide

theorem pyLower_eq_dot (c : Char) : pyLower c = '.' ↔ c = '.' := by
  unfold pyLower
  split <;> simp_all

theorem contains_dot_map_pyLower (f : PyStr) :
    (f.map pyLower).contains '.' = f.contains '.' := by
  induction f with
  | nil => rfl
  | cons c t ih =>
    simp only [List.map_cons, List.contains_cons, ih]
    have h : ('.' == pyLower c) = ('.' == c) := by
      by_cases hc : c = '.'
      · subst hc; rfl
      · have h1 : pyLower c ≠ '.' := fun h => hc ((pyLower_eq_dot c).mp h)
        have e1 : ('.' == pyLower c) = false := beq_eq_false_iff_ne.mpr (fun h => h1 h.symm)
        have e2 : ('.' == c) = false := beq_eq_false_iff_ne.mpr (fun h => hc h.symm)
        rw [e1, e2]
    rw [h]

theorem isEmpty_map_pyLower (f : PyStr) : (f.map pyLower).isEmpty = f.isEmpty := by
  cases f <;> rfl

theorem map_pyLower_idem (f : PyStr) :
    (f.map pyLower).map pyLower = f.map pyLower := by
  rw [List.map_map]
  exact List.map_congr_left (fun c _ => pyLower_pyLower c)

theorem pyExtension_map_pyLower (f : PyStr) :
    pyExtension (f.map pyLower) = pyExtension f := by
  unfold pyExtension
  rw [contains_dot_map_pyLower, map_pyLower_idem]

example : fileicon ( str "Photo.JPG") = str "fas fa-image" := by decide
example : fileicon ( str "notes") = str "fas fa-file" := by decide
example : fileicon ( str "a.tar.gz") = str "fas fa-file-archive" := by decide

/-- C10: the file-icon classifier is total and closed over exactly nine icon
classes; it is case-insensitive (lowercasing the filename does not change the
result); and a falsy filename, a filename without a dot, or an unrecognised
extension all yield the default `"fas fa-file"`. -/
theorem claim_C10 :
    (∀ f : PyStr, fileicon f ∈ iconClasses)
    ∧ iconClasses.length = 9
    ∧ (∀ f : PyStr, fileicon (f.map pyLower) = fileicon f)
    ∧ fileicon [] = str "fas fa-file"
    ∧ (∀ f : PyStr, f.contains '.' = false → fileicon f = str "fas fa-file")
    ∧ (∀ f : PyStr, pyExtension f ∉ knownExts → fileicon f = str "fas fa-file") := by
  have hdefault : ∀ f : PyStr, pyExtension f ∉ knownExts → fileicon f = str "fas fa-file" := by
    intro f h
    simp only [knownExts, List.mem_append, not_or] at h
    unfold fileicon
    split_ifs <;> tauto
  refine ⟨?_, rfl, ?_, rfl, ?_, hdefault⟩
  · intro f
    unfold fileicon
    split_ifs <;> decide
  · intro f
    unfold fileicon
    rw [pyExtension_map_pyLower, isEmpty_map_pyLower]
  · intro f h
    apply hdefault
    have hx : pyExtension f = [] := by
      unfold pyExtension
      rw [h]
      rfl
    rw [hx]
    decide

/-- Witness for C10 at concrete inputs: a filename without a dot and a
filename with an unrecognised extension both take the default branch. -/
theorem claim_C10_witness :
    fileicon ( str "README") = str "fas fa-file"
    ∧ fileicon ( str "data.xyz") = str "fas fa-file" :=
  ⟨claim_C10.2.2.2.2.1 ( str "README") (by decide),
   claim_C10.2.2.2.2.2 ( str "data.xyz") (by decide)⟩

/-! Lexicographic comparison of Python strings (code-point order), and the
sort key `(not is_dir, name)` used by `entries.sort` in both routes. -/

/-- Python string `<=` as a Boolean: lexicographic by code point. -/
def lexLe : PyStr → PyStr → Bool
  | [], _ => true
  | _ :: _, [] => false
  | a :: as, b :: bs => if a < b then true else if b < a then false else lexLe as bs

theorem lexLe_refl : ∀ s : PyStr, lexLe s s = true
  | [] => rfl
  | a :: as => by simp [lexLe, lexLe_refl as]

theorem lexLe_total : ∀ a b : PyStr, lexLe a b = true ∨ lexLe b a = true
  | [], _ => Or.inl rfl
  | _ :: _, [] => Or.inr rfl
  | a :: as, b :: bs => by
    rcases lt_trichotomy a b with h | h | h
    · left; simp [lexLe, h]
    · subst h
      rcases lexLe_total as bs with ih | ih
      · left; simp [lexLe, ih]
      · right; simp [lexLe, ih]
    · right; simp [lexLe, h]

theorem lexLe_trans : ∀ a b c : PyStr,
    lexLe a b = true → lexLe b c = true → lexLe a c = true
  | [], _, _, _, _ => rfl
  | _ :: _, [], _, h, _ => by simp [lexLe] at h
  | _ :: _, _ :: _, [], _, h => by simp [lexLe] at h
  | a :: as, b :: bs, c :: cs, h1, h2 => by
    simp only [lexLe] at h1 h2 ⊢
    rcases lt_trichotomy a b with hab | hab | hab
    · rcases lt_trichotomy b c with hbc | hbc | hbc
      · simp [lt_trans hab hbc]
      · subst hbc; simp [hab]
      · rw [if_neg (asymm hbc), if_pos hbc] at h2; exact absurd h2 (by simp)
    · subst hab
      rcases lt_trichotomy a c with hac | hac | hac
      · simp [hac]
      · subst hac
        rw [if_neg (lt_irrefl a), if_neg (lt_irrefl a)] at h1 h2 ⊢
        exact lexLe_trans as bs cs h1 h2
      · rw [if_neg (asymm hac), if_pos hac] at h2; exact absurd h2 (by simp)
    · rw [if_neg (asymm hab), if_pos hab] at h1; exact absurd h1 (by simp)

/-- Boolean `<=` on the Python sort key `(not is_dir, name)`: tuple
comparison, with `False < True` as in Python. -/
def keyLeb : Bool × PyStr → Bool × PyStr → Bool
  | (b1, n1), (b2, n2) => if b1 = b2 then lexLe n1 n2 else decide (b1 = false)

theorem keyLeb_refl (k : Bool × PyStr) : keyLeb k k = true := by
  obtain ⟨b, n⟩ := k
  simp [keyLeb, lexLe_refl]

theorem keyLeb_total (k l : Bool × PyStr) : keyLeb k l = true ∨ keyLeb l k = true := by
  obtain ⟨b1, n1⟩ := k
  obtain ⟨b2, n2⟩ := l
  by_cases h : b1 = b2
  · subst h
    rcases lexLe_total n1 n2 with h | h
    · left; simp [keyLeb, h]
    · right; simp [keyLeb, h]
  · cases b1 <;> cases b2 <;> simp_all [keyLeb]

theorem keyLeb_trans (k l m : Bool × PyStr) :
    keyLeb k l = true → keyLeb l m = true → keyLeb k m = true := by
  obtain ⟨b1, n1⟩ := k
  obtain ⟨b2, n2⟩ := l
  obtain ⟨b3, n3⟩ := m
  cases b1 <;> cases b2 <;> cases b3 <;>
    simp_all [keyLeb] <;>
    exact fun h1 h2 => lexLe_trans _ _ _ h1 h2

/-! Data model of a directory listing. -/

/-- One entry of a rendered directory listing: the dictionary built by
`index`/`browse`.  Keys that Python only sets conditionally are `Option`s
defaulting to `none`. -/
structure Entry where
  name : PyStr
  key : PyStr
  is_dir : Bool
  size : Option Nat := none
  last_modified : Option PyStr := none
  public_url : Option PyStr := none
  presigned_url : Option PyStr := none
  file_url : Option PyStr := none
deriving DecidableEq, Repr

/-- The Python sort key `lambda x: (not x.get("is_dir", False), x["name"])`. -/
def eKey (e : Entry) : Bool × PyStr := (!e.is_dir, e.name)

/-- The ordering used by `entries.sort(...)`. -/
def entryLe (a b : Entry) : Prop := keyLeb (eKey a) (eKey b) = true

instance : DecidableRel entryLe := fun _ _ => instDecidableEqBool _ _

instance : IsTotal Entry entryLe := ⟨fun a b => keyLeb_total (eKey a) (eKey b)⟩

instance : IsTrans Entry entryLe := ⟨fun a b c => keyLeb_trans (eKey a) (eKey b) (eKey c)⟩

/-- `entries.sort(key=lambda x: (not x.get("is_dir", False), x["name"]))`:
Python's sort is stable and ascending on the key, which is exactly
`List.insertionSort` with the reflexive total order `entryLe` (any two
stable sorts for the same total preorder agree). -/
def pySortEntries (l : List Entry) : List Entry := l.insertionSort entryLe

/-! Stability of insertion sort, expressed through `filter`: the elements of
any fixed key class come out in their original relative order. -/

theorem filter_orderedInsert_pos (r : α → α → Prop) [DecidableRel r] (q : α → Bool)
    (x : α) (hx : q x = true) (hq : ∀ y, q y = true → r x y) :
    ∀ l : List α, (l.orderedInsert r x).filter q = x :: l.filter q := by
  intro l
  induction l with
  | nil => simp [List.orderedInsert, hx]
  | cons y ys ih =>
    by_cases hr : r x y
    · simp [List.orderedInsert, hr, List.filter_cons, hx]
    · have hy : q y = false := by
        cases hqy : q y
        · rfl
        · exact absurd (hq y hqy) hr
      simp [List.orderedInsert, hr, List.filter_cons, hy, ih]

theorem filter_orderedInsert_neg (r : α → α → Prop) [DecidableRel r] (q : α → Bool)
    (x : α) (hx : q x = false) :
    ∀ l : List α, (l.orderedInsert r x).filter q = l.filter q := by
  intro l
  induction l with
  | nil => simp [List.orderedInsert, hx]
  | cons y ys ih =>
    by_cases hr : r x y
    · simp [List.orderedInsert, hr, List.filter_cons, hx]
    · simp [List.orderedInsert, hr, List.filter_cons, ih]

theorem filter_insertionSort (r : α → α → Prop) [DecidableRel r] (q : α → Bool)
    (hq : ∀ x y, q x = true → q y = true → r x y) :
    ∀ l : List α, (l.insertionSort r).filter q = l.filter q := by
  intro l
  induction l with
  | nil => rfl
  | cons a l ih =>
    rw [List.insertionSort]
    cases ha : q a
    · rw [filter_orderedInsert_neg r q a ha, ih, List.filter_cons, ha]
      simp
    · rw [filter_orderedInsert_pos r q a ha (fun y hy => hq a y ha hy), ih,
        List.filter_cons, ha]
      simp

/-! The object store and the process configuration. -/

/-- One object in the bucket, as reported by the store's listing
(`Key`, `Size`, `LastModified`; the modification instant is carried as its
already-formatted string, since `format_timestamp` only renders it). -/
structure StoredObj where
  key : PyStr
  size : Nat
  lastModified : PyStr
deriving DecidableEq, Repr

/-- The environment-derived configuration read by `app.py`, plus the
presigning capability of the boto3 client.  `presign k` models
`generate_presigned_url` for object `k`: `none` is the exception branch
(which `app.py` converts to `None`). -/
structure Cfg where
  endpoint : Option PyStr
  accessKey : Option PyStr
  secretKey : Option PyStr
  publicBase : Option PyStr
  presign : PyStr → Option PyStr

/-- `get_s3_client`: raises `RuntimeError` when `R2_ENDPOINT_URL` is falsy or
either credential is falsy; the raised message is the `Except.error` value. -/
def getS3Client (cfg : Cfg) : Except PyStr Unit :=
  if !truthyOpt cfg.endpoint then
    .error ( str "R2_ENDPOINT_URL environment variable is not set")
  else if !truthyOpt cfg.accessKey || !truthyOpt cfg.secretKey then
    .error ( str "ACCESS_KEY_ID and SECRET_ACCESS_KEY must be set")
  else .ok ()

/-- Whether a required connection parameter is absent (or empty). -/
def requiredMissing (cfg : Cfg) : Bool :=
  !truthyOpt cfg.endpoint || !truthyOpt cfg.accessKey || !truthyOpt cfg.secretKey

/-- `get_public_url`: `None` when `R2_PUBLIC_URL` is falsy, else the base URL
with trailing slashes stripped, a slash, and the key. -/
def rstripChar (c : Char) (s : PyStr) : PyStr :=
  (s.reverse.dropWhile (· == c)).reverse

def getPublicUrl (cfg : Cfg) (key : PyStr) : Option PyStr :=
  match cfg.publicBase with
  | none => none
  | some base => if base.isEmpty then none else some (rstripChar '/' base ++ '/' :: key)

/-- `get_file_url`: the proxy URL `/file/<key>`, derivable from the key alone. -/
def getFileUrl (key : PyStr) : PyStr := str "/file/" ++ key

/-- `format_timestamp` renders the store's modification instant; with instants
already carried as strings it is the identity rendering. -/
def formatTimestamp (t : PyStr) : PyStr := t

/-- The result of `list_objects_v2(Bucket=…, Delimiter="/", Prefix=…)`:
`Contents` and `CommonPrefixes`. -/
structure ListResp where
  contents : List StoredObj
  commonPfxs : List PyStr
deriving DecidableEq, Repr

/-- Modelled from the spec (§4.4 Object Store Client Adapter, §2 and the
glossary): the boto3 `list_objects_v2` call is an external collaborator, so
its documented delimiter contract is embedded.  Keys under the requested
prefix whose remainder contains no delimiter are returned in `Contents`;
every other key under the prefix is rolled up, one level deep, into a
deduplicated common prefix ending in the delimiter.  An omitted `Prefix`
keyword (the root listing of `index`) is the empty prefix. -/
def listObjectsV2 (bucket : List StoredObj) (pfx : PyStr) : ListResp where
  contents := bucket.filter
    (fun o => pfx.isPrefixOf o.key && !((o.key.drop pfx.length).contains '/'))
  commonPfxs := (bucket.filterMap (fun o =>
    if pfx.isPrefixOf o.key && (o.key.drop pfx.length).contains '/' then
      some (pfx ++ (o.key.drop pfx.length).takeWhile (· ≠ '/') ++ [ '/' ])
    else none)).dedup

/-! The namespace projector: entry construction, prefix normalization and
breadcrumbs, shared between the `index` and `browse` routes. -/

/-- Python `prefix.endswith("/")`. -/
def endsSlash (s : PyStr) : Bool := s.getLast? == some '/'

/-- Prefix normalization of both routes: a non-empty prefix gets a trailing
delimiter appended when missing. -/
def normPfx (p : PyStr) : PyStr :=
  if !p.isEmpty && !endsSlash p then p ++ [ '/' ] else p

/-- The two `continue` guards of the `Contents` loop: skip a key equal to a
non-empty prefix, and skip sentinel keys ending in the delimiter. -/
def keepObj (p : PyStr) (o : StoredObj) : Bool :=
  !(!p.isEmpty && o.key == p) && !endsSlash o.key

/-- A file entry as built by `index` (with public, presigned and proxy URLs). -/
def indexFileEntry (cfg : Cfg) (p : PyStr) (o : StoredObj) : Entry where
  name := o.key.drop p.length
  key := o.key
  is_dir := false
  size := some o.size
  last_modified := some (formatTimestamp o.lastModified)
  public_url := truthyFilter (getPublicUrl cfg o.key)
  presigned_url := truthyFilter (cfg.presign o.key)
  file_url := some (getFileUrl o.key)

/-- A file entry as built by `browse` (proxy URL only). -/
def browseFileEntry (p : PyStr) (o : StoredObj) : Entry where
  name := o.key.drop p.length
  key := o.key
  is_dir := false
  size := some o.size
  last_modified := some (formatTimestamp o.lastModified)
  file_url := some (getFileUrl o.key)

/-- A directory entry from a common prefix: only `name`, `key`, `is_dir`. -/
def dirEntry (p : PyStr) (q : PyStr) : Entry where
  name := rstripChar '/' (q.drop p.length)
  key := q
  is_dir := true

/-- One breadcrumb: `{"name": seg, "prefix": acc}`. -/
structure Crumb where
  name : PyStr
  pfx : PyStr
deriving DecidableEq, Repr

/-- The breadcrumb accumulation loop: `acc = acc + seg + "/"` per segment. -/
def crumbsAux (acc : PyStr) : List PyStr → List Crumb
  | [] => []
  | s :: ss =>
    let acc2 := acc ++ s ++ [ '/' ]
    ⟨s, acc2⟩ :: crumbsAux acc2 ss

/-- Breadcrumbs of a normalized prefix: empty for the root, otherwise the
accumulation over `prefix.rstrip("/").split("/")`. -/
def crumbsOf (p : PyStr) : List Crumb :=
  if p.isEmpty then [] else crumbsAux [] (pySplit (rstripChar '/' p) '/')

/-- A rendered page: the listing view on success, or the same template with
an inline error message (still HTTP 200) when the handler's blanket
`except Exception` catches. -/
inductive Page where
  | ok (entries : List Entry) (currentPfx : PyStr) (crumbs : List Crumb)
  | errorPage (msg : PyStr)
deriving DecidableEq, Repr

/-- Entries of a page (empty for the error view, which renders none). -/
def pageEntries : Page → List Entry
  | .ok es _ _ => es
  | .errorPage _ => []

/-- The `/` route (`index`): optional `?prefix=` query parameter, normalized;
one delimiter listing; file entries with public/presigned/proxy URLs; then
directory entries; sorted; plus breadcrumbs.  A `RuntimeError` from
`get_s3_client` is caught by the blanket `except` and rendered inline. -/
def indexRoute (cfg : Cfg) (bucket : List StoredObj) (queryPfx : PyStr) : Page :=
  match getS3Client cfg with
  | .error e => .errorPage e
  | .ok _ =>
    let p := normPfx queryPfx
    let resp := listObjectsV2 bucket p
    let entries :=
      (resp.contents.filter (keepObj p)).map (indexFileEntry cfg p)
        ++ resp.commonPfxs.map (dirEntry p)
    .ok (pySortEntries entries) p (crumbsOf p)

/-- The `/<path:prefix_path>` route (`browse`): same pipeline, but its file
entries carry only the proxy URL. -/
def browseRoute (cfg : Cfg) (bucket : List StoredObj) (pathPfx : PyStr) : Page :=
  match getS3Client cfg with
  | .error e => .errorPage e
  | .ok _ =>
    let p := normPfx pathPfx
    let resp := listObjectsV2 bucket p
    let entries :=
      (resp.contents.filter (keepObj p)).map (browseFileEntry p)
        ++ resp.commonPfxs.map (dirEntry p)
    .ok (pySortEntries entries) p (crumbsOf p)

example :
    pageEntries (browseRoute
      ⟨some ( str "e"), some ( str "k"), some ( str "s"), none, fun _ => none⟩
      [⟨ str "a.txt", 3, str "t"⟩, ⟨ str "photos/p.png", 5, str "u"⟩] []) =
    [dirEntry [] ( str "photos/"),
     { name := str "a.txt", key := str "a.txt", is_dir := false, size := some 3,
       last_modified := some ( str "t"), file_url := some ( str "/file/a.txt") }] := by
  decide

/-! Breadcrumb lemmas. -/

theorem pySplit_ne_nil (s : PyStr) (c : Char) : pySplit s c ≠ [] := by
  cases s with
  | nil => simp [pySplit]
  | cons a as =>
    rw [pySplit]
    cases pySplit as c with
    | nil => simp
    | cons h t =>
      dsimp only
      split <;> simp

/-- Concatenation of segments with a delimiter appended after each one:
the shape produced by the breadcrumb accumulator. -/
def joinSlash : List PyStr → PyStr
  | [] => []
  | s :: ss => s ++ '/' :: joinSlash ss

theorem joinSlash_pySplit (s : PyStr) : joinSlash (pySplit s '/') = s ++ [ '/' ] := by
  induction s with
  | nil => rfl
  | cons a as ih =>
    rw [pySplit]
    cases hr : pySplit as '/' with
    | nil => exact absurd hr (pySplit_ne_nil as '/')
    | cons h t =>
      rw [hr] at ih
      dsimp only
      by_cases hac : a = '/'
      · subst hac
        rw [if_pos rfl, joinSlash, ih]
        simp
      · rw [if_neg hac]
        simp only [List.cons_append, joinSlash]
        exact congrArg (List.cons a) ih

theorem crumbsAux_map_name (segs : List PyStr) (acc : PyStr) :
    (crumbsAux acc segs).map Crumb.name = segs := by
  induction segs generalizing acc with
  | nil => rfl
  | cons s ss ih => simp [crumbsAux, ih]

theorem crumbsAux_length (segs : List PyStr) (acc : PyStr) :
    (crumbsAux acc segs).length = segs.length := by
  have h := congrArg List.length (crumbsAux_map_name segs acc)
  simpa using h

theorem crumbsAux_getLast (segs : List PyStr) (h : segs ≠ []) :
    ∀ acc : PyStr,
      ((crumbsAux acc segs).getLast?).map Crumb.pfx = some (acc ++ joinSlash segs) := by
  induction segs with
  | nil => exact absurd rfl h
  | cons s ss ih =>
    intro acc
    cases ss with
    | nil => simp [crumbsAux, joinSlash, List.append_assoc]
    | cons s2 ss2 =>
      have e1 : crumbsAux acc (s :: s2 :: ss2)
          = ⟨s, acc ++ s ++ [ '/' ]⟩ :: crumbsAux (acc ++ s ++ [ '/' ]) (s2 :: ss2) := rfl
      have e2 : crumbsAux (acc ++ s ++ [ '/' ]) (s2 :: ss2)
          = ⟨s2, acc ++ s ++ [ '/' ] ++ s2 ++ [ '/' ]⟩
              :: crumbsAux (acc ++ s ++ [ '/' ] ++ s2 ++ [ '/' ]) ss2 := rfl
      rw [e1, e2, List.getLast?_cons_cons, ← e2, ih (by simp) (acc ++ s ++ [ '/' ])]
      simp [joinSlash, List.append_assoc]

theorem crumbsAux_map_pfx (segs : List PyStr) :
    ∀ acc : PyStr,
      (crumbsAux acc segs).map Crumb.pfx
        = (List.range segs.length).map
            (fun i => acc ++ joinSlash (segs.take (i + 1))) := by
  induction segs with
  | nil => intro acc; rfl
  | cons s ss ih =>
    intro acc
    rw [show crumbsAux acc (s :: ss)
        = ⟨s, acc ++ s ++ [ '/' ]⟩ :: crumbsAux (acc ++ s ++ [ '/' ]) ss from rfl]
    rw [List.map_cons, ih (acc ++ s ++ [ '/' ])]
    rw [List.length_cons, List.range_succ_eq_map, List.map_cons, List.map_map]
    refine congrArg₂ List.cons ?_ ?_
    · simp [joinSlash, List.append_assoc]
    · apply List.map_congr_left
      intro i hi
      simp [Function.comp, List.take_succ_cons, joinSlash, List.append_assoc]

theorem endsSlash_concat (p : PyStr) (h : endsSlash p = true) :
    p.dropLast ++ [ '/' ] = p := by
  have h1 : p.getLast? = some '/' := by simpa [endsSlash] using h
  have hp : p ≠ [] := by
    intro e
    subst e
    simp at h1
  have hg : p.getLast hp = '/' := by
    have := List.getLast?_eq_getLast p hp
    rw [this] at h1
    exact Option.some.inj h1
  rw [← hg]
  exact List.dropLast_append_getLast hp

theorem rstripChar_dropLast (p : PyStr) (h1 : endsSlash p = true)
    (h2 : endsSlash p.dropLast = false) : rstripChar '/' p = p.dropLast := by
  have hco := endsSlash_concat p h1
  have hrev : p.reverse = '/' :: (p.dropLast).reverse := by
    conv_lhs => rw [← hco]
    rw [List.reverse_append]
    rfl
  unfold rstripChar
  rw [hrev, List.dropWhile_cons, if_pos (by rfl)]
  have hrest : (p.dropLast).reverse.dropWhile (· == '/') = (p.dropLast).reverse := by
    cases hq : (p.dropLast).reverse with
    | nil => rfl
    | cons c cs =>
      have hc : p.dropLast.getLast? = some c := by
        rw [← List.head?_reverse, hq]
        rfl
      have hcne : c ≠ '/' := by
        intro e
        subst e
        simp [endsSlash, hc] at h2
      rw [List.dropWhile_cons, if_neg (by simpa using hcne)]
  rw [hrest, List.reverse_reverse]

/-- C7 corrected, counterexample: `"a//"` is a fixed point of prefix
normalization (it is non-empty and already ends in the delimiter), yet the
final breadcrumb's cumulative prefix is `"a/"`, not `"a//"` — the claimed
round-trip fails because `rstrip("/")` removes the whole trailing run of
delimiters. -/
theorem claim_C7_cex :
    normPfx ( str "a//") = str "a//"
    ∧ ((crumbsOf ( str "a//")).getLast?).map Crumb.pfx = some ( str "a/")
    ∧ str "a/" ≠ str "a//" := by
  decide

/-- C7 (amended): for every normalized non-empty prefix whose trailing
delimiter run has length one (it ends in `"/"` but not in `"//"`), the final
breadcrumb's cumulative prefix reproduces the prefix exactly. -/
theorem claim_C7 (p : PyStr) (hne : p ≠ []) (h1 : endsSlash p = true)
    (h2 : endsSlash p.dropLast = false) :
    ((crumbsOf p).getLast?).map Crumb.pfx = some p := by
  unfold crumbsOf
  rw [if_neg (by simp [hne])]
  rw [rstripChar_dropLast p h1 h2]
  rw [crumbsAux_getLast _ (pySplit_ne_nil _ _) []]
  rw [joinSlash_pySplit, List.nil_append, endsSlash_concat p h1]

/-- Witness for C7 at the concrete prefix `"photos/"`. -/
theorem claim_C7_witness :
    ((crumbsOf ( str "photos/")).getLast?).map Crumb.pfx = some ( str "photos/") :=
  claim_C7 ( str "photos/") (by decide) (by decide) (by decide)

/-- C9 corrected, counterexample: the code splits with Python `str.split`,
which keeps empty fragments, so the normalized prefix `"a//b/"` (reachable
from the request `"a//b"`) produces the breadcrumb `("", "a//")` whose
segment name is empty — empty segments are not discarded. -/
theorem claim_C9_cex :
    normPfx ( str "a//b") = str "a//b/"
    ∧ Crumb.mk [] ( str "a//") ∈ crumbsOf ( str "a//b/")
    ∧ (crumbsOf ( str "a//b/")).map Crumb.name = [ str "a", [], str "b"] := by
  decide

/-- C9 (amended): breadcrumbs are derived by splitting the
delimiter-stripped prefix on the delimiter *keeping* empty segments — the
crumb names are exactly `prefix.rstrip("/").split("/")` — and each crumb's
cumulative prefix is the join of the segments so far, each followed by the
delimiter.  A prefix with consecutive delimiters therefore yields a crumb
with an empty segment name. -/
theorem claim_C9 (p : PyStr) (hne : p ≠ []) :
    (crumbsOf p).map Crumb.name = pySplit (rstripChar '/' p) '/'
    ∧ (crumbsOf p).map Crumb.pfx
        = (List.range (pySplit (rstripChar '/' p) '/').length).map
            (fun i => joinSlash ((pySplit (rstripChar '/' p) '/').take (i + 1))) := by
  have hcr : crumbsOf p = crumbsAux [] (pySplit (rstripChar '/' p) '/') := by
    unfold crumbsOf
    rw [if_neg (by simp [hne])]
  rw [hcr]
  refine ⟨crumbsAux_map_name _ _, ?_⟩
  rw [crumbsAux_map_pfx]
  apply List.map_congr_left
  intro i hi
  rw [List.nil_append]

/-- Witness for C9 at the concrete prefix `"photos/2024/"`. -/
theorem claim_C9_witness :
    (crumbsOf ( str "photos/2024/")).map Crumb.name
      = pySplit (rstripChar '/' ( str "photos/2024/")) '/' :=
  (claim_C9 ( str "photos/2024/") (by decide)).1

/-! Sorting: claim C5. -/

theorem entryLe_dirs {a b : Entry} (h : entryLe a b) (ha : a.is_dir = false) :
    b.is_dir = false := by
  cases hb : b.is_dir
  · rfl
  · simp [entryLe, eKey, keyLeb, ha, hb] at h

theorem entryLe_names {a b : Entry} (h : entryLe a b) (hab : a.is_dir = b.is_dir) :
    lexLe a.name b.name = true := by
  unfold entryLe eKey keyLeb at h
  rw [hab] at h
  simpa using h

/-- C5: the listing sort `entries.sort(key=lambda x: (not is_dir, name))` is a
permutation of its input, sorted by the key order; hence all directories come
strictly before all files and names ascend lexicographically within each
group; and the sort is stable: each key class keeps its discovery order.  The
entries of both routes are sorted this way. -/
theorem claim_C5 :
    (∀ l : List Entry, (pySortEntries l).Perm l)
    ∧ (∀ l : List Entry, (pySortEntries l).Pairwise entryLe)
    ∧ (∀ l : List Entry, (pySortEntries l).Pairwise
        (fun a b => a.is_dir = false → b.is_dir = false))
    ∧ (∀ l : List Entry, (pySortEntries l).Pairwise
        (fun a b => a.is_dir = b.is_dir → lexLe a.name b.name = true))
    ∧ (∀ (l : List Entry) (k : Bool × PyStr),
        (pySortEntries l).filter (fun e => eKey e == k)
          = l.filter (fun e => eKey e == k))
    ∧ (∀ cfg bucket qp,
        (pageEntries (indexRoute cfg bucket qp)).Pairwise entryLe
        ∧ (pageEntries (browseRoute cfg bucket qp)).Pairwise entryLe) := by
  have hsorted : ∀ l : List Entry, (pySortEntries l).Pairwise entryLe :=
    fun l => List.sorted_insertionSort entryLe l
  refine ⟨fun l => List.perm_insertionSort entryLe l, hsorted, ?_, ?_, ?_, ?_⟩
  · exact fun l => (hsorted l).imp (fun h => entryLe_dirs h)
  · exact fun l => (hsorted l).imp (fun h => entryLe_names h)
  · intro l k
    apply filter_insertionSort
    intro x y hx hy
    have hx2 : eKey x = k := by simpa using hx
    have hy2 : eKey y = k := by simpa using hy
    unfold entryLe
    rw [hx2, hy2]
    exact keyLeb_refl k
  · intro cfg bucket qp
    constructor
    · unfold indexRoute
      cases getS3Client cfg with
      | error m => simp [pageEntries]
      | ok u => exact hsorted _
    · unfold browseRoute
      cases getS3Client cfg with
      | error m => simp [pageEntries]
      | ok u => exact hsorted _

/-! Entry invariants: claim C6. -/

theorem keepObj_endsSlash {p : PyStr} {o : StoredObj} (h : keepObj p o = true) :
    endsSlash o.key = false := by
  unfold keepObj at h
  cases he : endsSlash o.key
  · rfl
  · rw [he] at h
    simp at h

theorem keepObj_ne {p : PyStr} {o : StoredObj} (h : keepObj p o = true)
    (hk : o.key ≠ []) : o.key ≠ p := by
  intro e
  unfold keepObj at h
  rw [e] at h
  simp [Bool.and_eq_true] at h
  exact hk (by rw [e]; exact h.1)

theorem commonPfxs_endsSlash (bucket : List StoredObj) (p : PyStr) (q : PyStr)
    (hq : q ∈ (listObjectsV2 bucket p).commonPfxs) : endsSlash q = true := by
  unfold listObjectsV2 at hq
  rw [List.mem_dedup] at hq
  rcases List.mem_filterMap.mp hq with ⟨o, ho, hf⟩
  split at hf
  · have hq2 := Option.some.inj hf
    subst hq2
    simp [endsSlash, List.getLast?_concat]
  · exact absurd hf (by simp)

/-- The fields every directory entry must (not) carry. -/
def dirInv (e : Entry) : Prop :=
  endsSlash e.key = true ∧ e.size = none ∧ e.last_modified = none
    ∧ e.public_url = none ∧ e.presigned_url = none ∧ e.file_url = none

/-- The per-entry invariant of a listing for normalized prefix `p`. -/
def entryInv (p : PyStr) (e : Entry) : Prop :=
  (e.is_dir = true → dirInv e)
    ∧ (e.is_dir = false → endsSlash e.key = false ∧ e.key ≠ p)

theorem entryInv_sound (bucket : List StoredObj) (p : PyStr)
    (hv : ∀ o ∈ bucket, o.key ≠ []) (mk : StoredObj → Entry)
    (hkey : ∀ o, (mk o).key = o.key) (hdir : ∀ o, (mk o).is_dir = false) :
    ∀ e ∈ pySortEntries
        (((listObjectsV2 bucket p).contents.filter (keepObj p)).map mk
          ++ (listObjectsV2 bucket p).commonPfxs.map (dirEntry p)),
      entryInv p e := by
  intro e he
  have he2 := (List.mem_insertionSort entryLe).mp he
  rcases List.mem_append.mp he2 with hf | hd
  · rcases List.mem_map.mp hf with ⟨o, hof, rfl⟩
    have hofc := List.mem_filter.mp hof
    have hob : o ∈ bucket := (List.mem_filter.mp hofc.1).1
    refine ⟨fun hcontra => ?_, fun _ => ?_⟩
    · rw [hdir o] at hcontra
      exact absurd hcontra (by simp)
    · rw [hkey o]
      exact ⟨keepObj_endsSlash hofc.2, keepObj_ne hofc.2 (hv o hob)⟩
  · rcases List.mem_map.mp hd with ⟨q, hq, rfl⟩
    refine ⟨fun _ => ?_, fun hcontra => ?_⟩
    · exact ⟨commonPfxs_endsSlash bucket p q hq, rfl, rfl, rfl, rfl, rfl⟩
    · exact absurd hcontra (by simp [dirEntry])

/-- C6: in every listing (either route), directory entries have keys ending
in the delimiter and carry no size, timestamp or URL fields, while file
entries have keys that do not end in the delimiter and are never the
requested prefix itself (assuming the store's keys are non-empty, as S3
guarantees). -/
theorem claim_C6 (cfg : Cfg) (bucket : List StoredObj) (qp : PyStr)
    (hv : ∀ o ∈ bucket, o.key ≠ []) :
    (∀ e ∈ pageEntries (indexRoute cfg bucket qp), entryInv (normPfx qp) e)
    ∧ (∀ e ∈ pageEntries (browseRoute cfg bucket qp), entryInv (normPfx qp) e) := by
  constructor
  · intro e he
    unfold indexRoute at he
    cases hc : getS3Client cfg with
    | error m =>
      rw [hc] at he
      simp [pageEntries] at he
    | ok u =>
      rw [hc] at he
      exact entryInv_sound bucket (normPfx qp) hv (indexFileEntry cfg (normPfx qp))
        (fun o => rfl) (fun o => rfl) e (by simpa [pageEntries] using he)
  · intro e he
    unfold browseRoute at he
    cases hc : getS3Client cfg with
    | error m =>
      rw [hc] at he
      simp [pageEntries] at he
    | ok u =>
      rw [hc] at he
      exact entryInv_sound bucket (normPfx qp) hv (browseFileEntry (normPfx qp))
        (fun o => rfl) (fun o => rfl) e (by simpa [pageEntries] using he)

/-! Concrete fixtures used by witnesses and counterexamples. -/

/-- A fully-configured environment (no public base URL, presigning failing). -/
def cfg₀ : Cfg :=
  ⟨some ( str "https://acc.r2.example"), some ( str "AKID"), some ( str "SECRET"),
    none, fun _ => none⟩

/-- A bucket holding a single object under the `photos/` prefix. -/
def bucket₁ : List StoredObj := [⟨ str "photos/a.txt", 7, str "2024-01-01 00:00:00"⟩]

/-- Witness for C6: the invariant instantiated on the directory entry that a
root listing of `bucket₁` produces. -/
theorem claim_C6_witness : entryInv (normPfx []) (dirEntry [] ( str "photos/")) :=
  (claim_C6 cfg₀ bucket₁ [] (by decide)).1 (dirEntry [] ( str "photos/")) (by decide)

/-! Route equivalence: claim C1. -/

/-- Erase the `public_url`/`presigned_url` fields that only `index` sets. -/
def stripUrls (e : Entry) : Entry := { e with public_url := none, presigned_url := none }

/-- Apply `stripUrls` to every entry of a page. -/
def stripPage : Page → Page
  | .ok es p cs => .ok (es.map stripUrls) p cs
  | .errorPage m => .errorPage m

theorem map_strip_entries (cfg : Cfg) (p : PyStr) (resp : ListResp) :
    ((resp.contents.filter (keepObj p)).map (indexFileEntry cfg p)
        ++ resp.commonPfxs.map (dirEntry p)).map stripUrls
      = (resp.contents.filter (keepObj p)).map (browseFileEntry p)
        ++ resp.commonPfxs.map (dirEntry p) := by
  rw [List.map_append, List.map_map, List.map_map]
  refine congrArg₂ HAppend.hAppend ?_ ?_
  · apply List.map_congr_left
    intro o _
    rfl
  · apply List.map_congr_left
    intro q _
    rfl

/-- A configuration with a public base URL (and presigning failing). -/
def cfgPub : Cfg :=
  ⟨some ( str "https://acc.r2.example"), some ( str "AKID"), some ( str "SECRET"),
    some ( str "https://pub.example"), fun _ => none⟩

/-- C1 corrected, counterexample: with a public base URL configured, the
root-route listing of `photos/` carries a `public_url` on its file entry
while the pretty-path route's entry carries none, so the two pages are not
identical. -/
theorem claim_C1_cex :
    (pageEntries (indexRoute cfgPub bucket₁ ( str "photos/"))).map Entry.public_url
      = [some ( str "https://pub.example/photos/a.txt")]
    ∧ (pageEntries (browseRoute cfgPub bucket₁ ( str "photos/"))).map Entry.public_url
      = [none]
    ∧ indexRoute cfgPub bucket₁ ( str "photos/")
        ≠ browseRoute cfgPub bucket₁ ( str "photos/") := by
  decide

/-- C1 (amended): for every configuration, bucket state and prefix, the
pretty-path route's page equals the root route's page with the
`public_url`/`presigned_url` fields erased from every entry — names, keys,
sizes, timestamps, `is_dir` flags, `file_url`s, entry order, current prefix,
breadcrumbs, and the error view all coincide; the pages are fully identical
whenever no public base URL is configured and presigning is unavailable. -/
theorem claim_C1 (cfg : Cfg) (bucket : List StoredObj) (qp : PyStr) :
    browseRoute cfg bucket qp = stripPage (indexRoute cfg bucket qp) := by
  unfold indexRoute browseRoute
  cases getS3Client cfg with
  | error m => rfl
  | ok u =>
    simp only [stripPage]
    unfold pySortEntries
    rw [List.map_insertionSort entryLe entryLe stripUrls
      (((listObjectsV2 bucket (normPfx qp)).contents.filter (keepObj (normPfx qp))).map
          (indexFileEntry cfg (normPfx qp))
        ++ (listObjectsV2 bucket (normPfx qp)).commonPfxs.map (dirEntry (normPfx qp)))
      (fun a _ b _ => Iff.rfl)]
    rw [map_strip_entries]

/-! The file proxy `serve_file`: claim C2. -/

/-- An exception value alive inside `serve_file`'s outer `try`:
`abort(n)` raises an `HTTPException` (a subclass of `Exception`),
`get_s3_client` raises `RuntimeError`, anything else is generic. -/
inductive PyExc where
  | httpAbort (code : Nat)
  | runtimeErr (msg : PyStr)
  | otherExc
deriving DecidableEq, Repr

/-- Result of `head_object`: metadata, a `ClientError` with a code, or a
non-`ClientError` exception. -/
inductive HeadOutcome where
  | found
  | clientError (code : PyStr)
  | exn
deriving DecidableEq, Repr

/-- The object returned by `get_object` (`ContentType`, `ContentLength`). -/
structure FileObj where
  contentType : PyStr
  contentLength : Nat
deriving DecidableEq, Repr

/-- Outcome of the `/file/<path>` handler. -/
inductive FileResult where
  | stream (contentType : PyStr) (contentLength : Nat)
  | httpError (code : Nat)
deriving DecidableEq, Repr

/-- Modelled from the spec (§4.4): `head_object` against a bucket state —
boto3 raises a `ClientError` with code `"404"` for an absent key and
returns metadata for a present one.  Transport failures are injected via
`HeadOutcome` where a statement needs them. -/
def headObject (bucket : List StoredObj) (key : PyStr) : HeadOutcome :=
  if bucket.any (fun o => o.key == key) then .found else .clientError ( str "404")

/-- The body of `serve_file`'s outer `try`: the inner `except ClientError`
calls `abort(404)` on code `"404"` and `abort(500)` otherwise, both of which
*raise*; a failing `get_object` (`getRes = none`) raises too. -/
def serveFileBody (cfg : Cfg) (head : HeadOutcome) (getRes : Option FileObj) :
    Except PyExc FileObj :=
  match getS3Client cfg with
  | .error m => .error (.runtimeErr m)
  | .ok _ =>
    match head with
    | .clientError code =>
      if code == str "404" then .error (.httpAbort 404) else .error (.httpAbort 500)
    | .exn => .error .otherExc
    | .found =>
      match getRes with
      | none => .error .otherExc
      | some fo => .ok fo

/-- The `/file/<path>` handler `serve_file`: the outer `except Exception`
catches *every* exception raised in the body — including the
`HTTPException`s raised by the inner `abort(404)`/`abort(500)`, because
`HTTPException` subclasses `Exception` — and replies `abort(500)`. -/
def serveFile (cfg : Cfg) (head : HeadOutcome) (getRes : Option FileObj) : FileResult :=
  match serveFileBody cfg head getRes with
  | .ok fo => .stream fo.contentType fo.contentLength
  | .error _ => .httpError 500

/-- C2 names the intended behaviour, but the code has a bug: for a key
absent from the store the body does raise the intended `abort(404)`, yet the
outer blanket `except Exception` intercepts that `HTTPException` and replies
500 — so `/file/<key>` can never answer 404, and the not-found outcome is
*not* distinct from other probe failures: every failure path yields 500. -/
theorem claim_C2_bug :
    serveFileBody cfg₀ (headObject [] ( str "missing.png")) none
      = .error (.httpAbort 404)
    ∧ serveFile cfg₀ (headObject [] ( str "missing.png")) none = .httpError 500
    ∧ (∀ (cfg : Cfg) (h : HeadOutcome) (g : Option FileObj),
        serveFile cfg h g ≠ .httpError 404)
    ∧ (∀ (cfg : Cfg) (code : PyStr) (g : Option FileObj),
        serveFile cfg (.clientError code) g = .httpError 500)
    ∧ (∀ (cfg : Cfg) (g : Option FileObj), serveFile cfg .exn g = .httpError 500)
    ∧ (∀ fo : FileObj, serveFile cfg₀ .found (some fo)
        = .stream fo.contentType fo.contentLength) := by
  refine ⟨rfl, rfl, ?_, ?_, ?_, ?_⟩
  · intro cfg h g
    unfold serveFile serveFileBody
    cases getS3Client cfg with
    | error m => simp
    | ok u =>
      cases h with
      | clientError code =>
        dsimp only
        split <;> simp
      | exn => simp
      | found =>
        cases g with
        | none => simp
        | some fo => simp
  · intro cfg code g
    unfold serveFile serveFileBody
    cases getS3Client cfg with
    | error m => rfl
    | ok u =>
      cases hc : (code == str "404") <;> simp [hc]
  · intro cfg g
    unfold serveFile serveFileBody
    cases getS3Client cfg with
    | error m => rfl
    | ok u => rfl
  · intro fo
    unfold serveFile serveFileBody
    rw [show getS3Client cfg₀ = .ok () from rfl]

/-! The thumbnail engine: claims C3 and C4. -/

/-- Raw bytes. -/
abbrev Bytes := List Nat

/-- The digest space of MD5 (`2 ^ 128`). -/
def MD5_SPACE : Nat := 340282366920938463463374607431768211456

/-- Modelled from the spec (§4.3, §3 Thumbnail Cache Token):
`hashlib.md5(file_path.encode("utf-8")).hexdigest()` is an external library
hash; every verified property relies only on it being a fixed pure function
of the key, so a simple deterministic polynomial digest stands in for it. -/
def md5hex (s : PyStr) : PyStr :=
  Nat.toDigits 16 (s.foldl (fun a c => (a * 131 + c.toNat) % MD5_SPACE) 7)

/-- Thumbnail TTL: `THUMB_TTL_SECONDS`, default `3600`. -/
def THUMB_TTL : Nat := 3600

def natToStr (n : Nat) : PyStr := Nat.toDigits 10 n

/-- The weak validator `W/"<md5(key)>"`, a function of the key alone. -/
def etagFor (key : PyStr) : PyStr := str "W/\"" ++ md5hex key ++ [ '\"' ]

/-- The two cache headers set on every thumbnail response. -/
structure CacheHdrs where
  cacheControl : PyStr
  etag : PyStr
deriving DecidableEq, Repr

/-- The `cache_headers` dict of the `thumb` handler. -/
def cacheHeaders (key : PyStr) : CacheHdrs where
  cacheControl := str "public, max-age=" ++ natToStr THUMB_TTL
  etag := etagFor key

/-- The conditional check `etag and etag == cache_headers["ETag"]` on the
`If-None-Match` header (`none` models an absent header). -/
def etagMatches (inm : Option PyStr) (key : PyStr) : Bool :=
  match inm with
  | none => false
  | some e => !e.isEmpty && e == etagFor key

/-- A thumbnail response body. -/
inductive TBody where
  | empty
  | jpeg (b : Bytes)
  | placeholderSvg
deriving DecidableEq, Repr

/-- A `/thumb` response: status, the two cache headers, body. -/
structure ThumbResp where
  status : Nat
  headers : CacheHdrs
  body : TBody
deriving DecidableEq, Repr

/-- The 304 conditional-hit response (no body). -/
def cachedResp (key : PyStr) : ThumbResp := ⟨304, cacheHeaders key, .empty⟩

/-- The placeholder fallback: `static/thumb_placeholder.svg`, HTTP 200, with
the cache headers applied. -/
def placeholderResp (key : PyStr) : ThumbResp := ⟨200, cacheHeaders key, .placeholderSvg⟩

/-- A successful re-encoded JPEG thumbnail, HTTP 200, same cache headers. -/
def thumbImageResp (key : PyStr) (b : Bytes) : ThumbResp := ⟨200, cacheHeaders key, .jpeg b⟩

/-- The `/thumb/<path>` handler.  `fetch` models `get_object` plus the body
read (`none` is any fetch failure, an absent key included); `render` models
the whole PIL pipeline `open → convert("RGB") → thumbnail((320,320)) →
save(JPEG, quality=80)` (`none` is any decode or processing failure).  The
validator check precedes client construction and every store call, and the
outer `except` turns even a client-construction failure into the
placeholder. -/
def thumb (cfg : Cfg) (fetch : PyStr → Option Bytes) (render : Bytes → Option Bytes)
    (inm : Option PyStr) (key : PyStr) : ThumbResp :=
  if etagMatches inm key then cachedResp key
  else
    match getS3Client cfg with
    | .error _ => placeholderResp key
    | .ok _ =>
      match fetch key with
      | none => placeholderResp key
      | some data =>
        match render data with
        | none => placeholderResp key
        | some tb => thumbImageResp key tb

/-- C3: every failure in the thumbnail pipeline — client construction, store
fetch (an absent object included) or image decoding/processing — is absorbed
into the placeholder outcome, served with HTTP 200 and exactly the cache
headers (Cache-Control and ETag) of a successful thumbnail; the handler's
only outcomes are the conditional hit, the placeholder and a thumbnail, so
no failure ever propagates an error to the caller. -/
theorem claim_C3 (cfg : Cfg) (fetch : PyStr → Option Bytes)
    (render : Bytes → Option Bytes) (inm : Option PyStr) (key : PyStr)
    (hm : etagMatches inm key = false) :
    ((∃ m, getS3Client cfg = .error m) →
        thumb cfg fetch render inm key = placeholderResp key)
    ∧ (fetch key = none → thumb cfg fetch render inm key = placeholderResp key)
    ∧ (∀ d, fetch key = some d → render d = none →
        thumb cfg fetch render inm key = placeholderResp key)
    ∧ (thumb cfg fetch render inm key = placeholderResp key
        ∨ ∃ tb, thumb cfg fetch render inm key = thumbImageResp key tb)
    ∧ (placeholderResp key).status = 200
    ∧ (∀ b, (thumbImageResp key b).headers = (placeholderResp key).headers
        ∧ (thumbImageResp key b).status = 200) := by
  have hT : thumb cfg fetch render inm key
      = (match getS3Client cfg with
         | .error _ => placeholderResp key
         | .ok _ =>
           match fetch key with
           | none => placeholderResp key
           | some data =>
             match render data with
             | none => placeholderResp key
             | some tb => thumbImageResp key tb) := by
    unfold thumb
    rw [hm]
    rfl
  rw [hT]
  refine ⟨?_, ?_, ?_, ?_, rfl, fun b => ⟨rfl, rfl⟩⟩
  · rintro ⟨m, hcm⟩
    rw [hcm]
  · intro hf
    cases getS3Client cfg with
    | error m => rfl
    | ok u => rw [hf]
  · intro d hf hr
    cases getS3Client cfg with
    | error m => rfl
    | ok u =>
      rw [hf]
      simp [hr]
  · cases getS3Client cfg with
    | error m => exact Or.inl rfl
    | ok u =>
      cases hf : fetch key with
      | none => exact Or.inl rfl
      | some d =>
        cases hr : render d with
        | none =>
          refine Or.inl ?_
          simp [hr]
        | some tb =>
          refine Or.inr ⟨tb, ?_⟩
          simp [hr]

/-- Witness for C3: a fully failing pipeline on a missing key yields the
placeholder. -/
theorem claim_C3_witness :
    thumb cfg₀ (fun _ => none) (fun _ => none) none ( str "missing.png")
      = placeholderResp ( str "missing.png") :=
  (claim_C3 cfg₀ (fun _ => none) (fun _ => none) none ( str "missing.png") rfl).2.1 rfl

/-- C4: the cache validator carried by every thumbnail response is
`etagFor key`, a deterministic function of the key alone (independent of the
store behaviours, configuration and request headers), and a request whose
`If-None-Match` equals the validator is answered 304 with an empty body
before any client construction or store access: the outcome is the same for
arbitrary configurations and store behaviours. -/
theorem claim_C4 (cfg₁ cfg₂ : Cfg) (f₁ f₂ : PyStr → Option Bytes)
    (r₁ r₂ : Bytes → Option Bytes) (inm : Option PyStr) (key : PyStr)
    (hm : etagMatches inm key = true) :
    thumb cfg₁ f₁ r₁ inm key = cachedResp key
    ∧ thumb cfg₁ f₁ r₁ inm key = thumb cfg₂ f₂ r₂ inm key
    ∧ (cachedResp key).status = 304
    ∧ (cachedResp key).body = TBody.empty
    ∧ (∀ inm2 : Option PyStr, (thumb cfg₁ f₁ r₁ inm2 key).headers.etag = etagFor key)
    ∧ etagMatches (some (etagFor key)) key = true := by
  have h1 : ∀ (cfg : Cfg) (f : PyStr → Option Bytes) (r : Bytes → Option Bytes),
      thumb cfg f r inm key = cachedResp key := by
    intro cfg f r
    unfold thumb
    rw [hm]
    rfl
  have hetag : ∀ inm2 : Option PyStr,
      (thumb cfg₁ f₁ r₁ inm2 key).headers.etag = etagFor key := by
    intro inm2
    unfold thumb
    split
    · rfl
    · cases getS3Client cfg₁ with
      | error m => rfl
      | ok u =>
        cases hf : f₁ key with
        | none => rfl
        | some d =>
          cases hr : r₁ d with
          | none => simp [hr, placeholderResp, cacheHeaders]
          | some tb => simp [hr, thumbImageResp, cacheHeaders]
  have hne : (etagFor key).isEmpty = false := rfl
  refine ⟨h1 cfg₁ f₁ r₁, (h1 cfg₁ f₁ r₁).trans (h1 cfg₂ f₂ r₂).symm, rfl, rfl, hetag, ?_⟩
  simp only [etagMatches]
  rw [hne, beq_self_eq_true]
  rfl

/-- Witness for C4: a matching validator short-circuits to 304 even though
the store behaviours supplied here would produce a thumbnail. -/
theorem claim_C4_witness :
    thumb cfg₀ (fun _ => some [1]) (fun _ => some [2])
        (some (etagFor ( str "k.jpg"))) ( str "k.jpg")
      = cachedResp ( str "k.jpg") :=
  (claim_C4 cfg₀ cfg₀ (fun _ => some [1]) (fun _ => some [1]) (fun _ => some [2])
    (fun _ => some [2]) (some (etagFor ( str "k.jpg"))) ( str "k.jpg") (by decide)).1

/-! Configuration errors: claim C8. -/

/-- A configuration with the store endpoint missing. -/
def cfgNoEndpoint : Cfg :=
  ⟨none, some ( str "AKID"), some ( str "SECRET"), none, fun _ => none⟩

/-- C8 corrected, counterexample: with `R2_ENDPOINT_URL` unset nothing fails
at startup — the module loads and serves — and the very first request
surfaces the missing configuration as a per-request outcome: the listing
route renders the inline error page, the file route replies 500, the
thumbnail route serves the placeholder. -/
theorem claim_C8_cex :
    requiredMissing cfgNoEndpoint = true
    ∧ indexRoute cfgNoEndpoint [] []
        = Page.errorPage ( str "R2_ENDPOINT_URL environment variable is not set")
    ∧ serveFile cfgNoEndpoint .found none = .httpError 500
    ∧ thumb cfgNoEndpoint (fun _ => some [1]) (fun _ => some [2]) none ( str "k.jpg")
        = placeholderResp ( str "k.jpg") :=
  ⟨rfl, rfl, rfl, rfl⟩

/-- C8 (amended): absence of a required connection parameter (endpoint or
either credential, empty values included) makes `get_s3_client` raise — but
only at request time, there is no startup check; every handler catches it
and surfaces it per request: the listing routes render the inline error
view, the file route replies 500, and the thumbnail route serves the
placeholder (after the validator short-circuit). -/
theorem claim_C8 (cfg : Cfg) (hmiss : requiredMissing cfg = true) :
    (∃ m, getS3Client cfg = .error m)
    ∧ (∀ bucket qp, ∃ m, indexRoute cfg bucket qp = Page.errorPage m)
    ∧ (∀ bucket qp, ∃ m, browseRoute cfg bucket qp = Page.errorPage m)
    ∧ (∀ head g, serveFile cfg head g = .httpError 500)
    ∧ (∀ fetch render inm key, etagMatches inm key = false →
        thumb cfg fetch render inm key = placeholderResp key) := by
  have herr : ∃ m, getS3Client cfg = .error m := by
    unfold requiredMissing at hmiss
    unfold getS3Client
    cases he : truthyOpt cfg.endpoint
    · exact ⟨ str "R2_ENDPOINT_URL environment variable is not set", by simp [he]⟩
    · rw [he] at hmiss
      simp only [Bool.not_true, Bool.false_or] at hmiss
      exact ⟨ str "ACCESS_KEY_ID and SECRET_ACCESS_KEY must be set", by simp [he, hmiss]⟩
  obtain ⟨m, hm⟩ := herr
  refine ⟨⟨m, hm⟩, ?_, ?_, ?_, ?_⟩
  · intro bucket qp
    exact ⟨m, by unfold indexRoute; rw [hm]⟩
  · intro bucket qp
    exact ⟨m, by unfold browseRoute; rw [hm]⟩
  · intro head g
    unfold serveFile serveFileBody
    rw [hm]
  · intro fetch render inm key hinm
    unfold thumb
    rw [hinm, hm]
    rfl

/-- Witness for C8 at the concrete broken configuration. -/
theorem claim_C8_witness :
    thumb cfgNoEndpoint (fun _ => some [1]) (fun _ => some [2]) none ( str "x.png")
      = placeholderResp ( str "x.png") :=
  (claim_C8 cfgNoEndpoint rfl).2.2.2.2 (fun _ => some [1]) (fun _ => some [2])
    none ( str "x.png") rfl
